import Mathlib

/-!
Shallow embedding of src/src/blockchain/blockchain_genesis.cpp (unit-e),
the genesis block builder, together with models of the external
primitives it consumes (hex decoding, fixed-size hash values, script
construction, merkle root computation).  Machine integers that matter
(the 32-bit previous-output index) are modelled as Nat with explicit
bounds; amounts (CAmount, a signed 64-bit integer never subjected to
arithmetic here) are modelled as Int.  Failing C++ assertions are
modelled as Option: a constructor or Build returns none where the
corresponding assert would fire.
-/

namespace Blockchain

/-- CAmount from amount.h: a signed 64-bit integer.  The builder performs
no arithmetic on amounts, so Int is a faithful model. -/
abbrev CAmount := Int

/-- The uint256 type in its role as 32 bytes of data (prevout hash,
hashPrevBlock, the byte vector pushed into the coinbase scriptSig). -/
abbrev uint256 := List Nat

/-- uint256::zero, the all-zero 256-bit value: 32 zero bytes. -/
def uint256.zero : uint256 := List.replicate 32 0

/-- ToByteVector from script/script.h: the raw bytes of the value. -/
def ToByteVector (v : uint256) : List Nat := v

/-- CTxDestination restricted to the two variants this file constructs
(WitnessV0KeyHash wraps a uint160 = 20 bytes, WitnessV0ScriptHash wraps
a uint256 = 32 bytes). -/
inductive CTxDestination where
  | WitnessV0KeyHash (hash : List Nat)
  | WitnessV0ScriptHash (hash : List Nat)
deriving DecidableEq, Repr

/-- A script element: an opcode or a data push.  CScript building via
operator<< appends opcodes and pushes of byte vectors. -/
inductive ScriptElem where
  | op (code : Nat)
  | push (data : List Nat)
deriving DecidableEq, Repr

/-- CScript modelled as the sequence of elements appended to it. -/
abbrev CScript := List ScriptElem

/-- COutPoint: reference to a previous output (txid hash, output index n).
The index n is a uint32. -/
structure COutPoint where
  hash : uint256
  n : Nat
deriving DecidableEq, Repr

/-- Modelled from the spec: the canonical null previous-output reference
produced by default-constructing a CTxIn (primitives/transaction.h is not
part of this slice): all-zero hash and the maximum representable uint32
index. -/
def COutPoint.null : COutPoint := ⟨uint256.zero, 2 ^ 32 - 1⟩

/-- CTxIn: a transaction input. -/
structure CTxIn where
  prevout : COutPoint
  scriptSig : CScript
deriving DecidableEq, Repr

/-- CTxOut: a transaction output. -/
structure CTxOut where
  nValue : CAmount
  scriptPubKey : CScript
deriving DecidableEq, Repr

/-- TxType from blockchain/blockchain_types.h; only COINBASE is used here. -/
inductive TxType where
  | REGULAR
  | COINBASE
deriving DecidableEq, Repr

/-- The transaction fields this builder sets (CMutableTransaction made
immutable by MakeTransactionRef). -/
structure CTransaction where
  version : Int
  txType : TxType
  vin : List CTxIn
  vout : List CTxOut
deriving DecidableEq, Repr

/-- Modelled from the spec: transaction and merkle hashing are external
primitives (consensus/merkle.h, hashing of serialized transactions).
Hashes are modelled as a free term algebra: txid t is the hash of
transaction t, node l r the inner merkle combination, null the hash of
an empty list.  This keeps hashing injective and computable without
embedding SHA256. -/
inductive MerkleHash where
  | null
  | txid (t : CTransaction)
  | node (l r : MerkleHash)
deriving DecidableEq, Repr

/-- CTransaction::GetHash, modelled injectively (see MerkleHash). -/
def CTransaction.GetHash (t : CTransaction) : MerkleHash := .txid t

/-- One level of the merkle tree: combine hashes pairwise, duplicating a
trailing odd element. -/
def combineLevel : List MerkleHash → List MerkleHash
  | [] => []
  | [a] => [.node a a]
  | a :: b :: rest => .node a b :: combineLevel rest

/-- Merkle root of a list of hashes, with fuel bounding the number of
levels (fuel = list length always suffices since each level at least
halves a list of two or more). -/
def merkleRootLoop : Nat → List MerkleHash → MerkleHash
  | _, [] => .null
  | _, [h] => h
  | 0, h :: _ => h
  | fuel + 1, hs => merkleRootLoop fuel (combineLevel hs)

/-- Modelled from the spec: the merkle root over an ordered transaction
list (consensus/merkle.h), pairwise hashing; for a one-element list it
equals that element's own hash. -/
def BlockMerkleRoot (txs : List CTransaction) : MerkleHash :=
  merkleRootLoop txs.length (txs.map CTransaction.GetHash)

/-- CBlock restricted to the fields Build touches. -/
structure CBlock where
  nVersion : Int
  nTime : Nat
  nBits : Nat
  hashPrevBlock : uint256
  hashMerkleRoot : MerkleHash
  vtx : List CTransaction
  signature : List Nat
deriving DecidableEq, Repr

/-- Modelled from the spec: the chain-behavior timestamp resolver
(blockchain/blockchain_behavior.h): given chain parameters and a
candidate time, it returns the final proposing timestamp.  A Parameters
value determines that resolution function. -/
structure Parameters where
  calculateProposingTimestamp : Nat → Nat

/-- CScriptNum::serialize helper: little-endian base-256 digits of a
natural number, with fuel (fuel = n suffices since n / 256 < n). -/
def bytesLE : Nat → Nat → List Nat
  | 0, _ => []
  | _ + 1, 0 => []
  | fuel + 1, n => n % 256 :: bytesLE fuel (n / 256)

/-- CScriptNum::serialize from script/script.h: minimal little-endian
encoding with a sign bit in the most significant byte; zero encodes as
the empty vector. -/
def CScriptNum.serialize (v : Int) : List Nat :=
  if v = 0 then []
  else
    let neg := v < 0
    let bs := bytesLE v.natAbs v.natAbs
    match bs.getLast? with
    | none => []
    | some last =>
      if 128 ≤ last then bs ++ [if neg then 128 else 0]
      else if neg then bs.dropLast ++ [last + 128]
      else bs

/-- Modelled from the spec: the destination-to-script resolver
(GetScriptForDestination in script/standard.h): a deterministic mapping
from a typed destination to its locking script; witness v0 programs are
OP_0 followed by the pushed program hash. -/
def GetScriptForDestination : CTxDestination → CScript
  | .WitnessV0KeyHash h => [.op 0, .push h]
  | .WitnessV0ScriptHash h => [.op 0, .push h]

/-- The genesis block builder's accumulated configuration
(blockchain/blockchain_genesis.h): version, time, bits and the ordered
fund list of (amount, destination) pairs. -/
structure GenesisBlockBuilder where
  m_version : Int
  m_time : Nat
  m_bits : Nat
  m_initial_funds : List (CAmount × CTxDestination)
deriving DecidableEq, Repr

/-- GenesisBlockBuilder::BuildCoinbaseTransaction: version 2, type
COINBASE, one input (default-constructed, hence null prevout) whose
scriptSig pushes CScriptNum::serialize(0) and the bytes of
uint256::zero, and one output per fund entry in list order. -/
def GenesisBlockBuilder.BuildCoinbaseTransaction
    (b : GenesisBlockBuilder) : CTransaction :=
  let script_sig : CScript :=
    [.push (CScriptNum.serialize 0), .push (ToByteVector uint256.zero)]
  { version := 2
    txType := .COINBASE
    vin := [{ prevout := COutPoint.null, scriptSig := script_sig }]
    vout := b.m_initial_funds.map fun target =>
      { nValue := target.1, scriptPubKey := GetScriptForDestination target.2 } }

/-- The six assertions at the end of GenesisBlockBuilder::Build, lines
63 to 71: exactly one transaction, exactly one input, null prevout hash,
maximal prevout index, one output per fund, and merkle root equal to the
sole transaction's hash. -/
def genesisAssertions (blk : CBlock) (fundCount : Nat) : Bool :=
  match blk.vtx with
  | [tx] =>
    match tx.vin with
    | [txin] =>
      txin.prevout.hash == uint256.zero &&
      txin.prevout.n == 2 ^ 32 - 1 &&
      tx.vout.length == fundCount &&
      blk.hashMerkleRoot == tx.GetHash
    | _ => false
  | _ => false

/-- GenesisBlockBuilder::Build: assemble the header from the builder's
fields (time resolved through the chain behavior), set vtx to the sole
coinbase transaction, zero hashPrevBlock, compute the merkle root, clear
the signature, and check the assertions (none means an assert fired). -/
def GenesisBlockBuilder.Build (b : GenesisBlockBuilder)
    (parameters : Parameters) : Option CBlock :=
  let coinbase_transaction := b.BuildCoinbaseTransaction
  let genesis_block : CBlock :=
    { nVersion := b.m_version
      nTime := parameters.calculateProposingTimestamp b.m_time
      nBits := b.m_bits
      hashPrevBlock := uint256.zero
      hashMerkleRoot := BlockMerkleRoot [coinbase_transaction]
      vtx := [coinbase_transaction]
      signature := [] }
  if genesisAssertions genesis_block b.m_initial_funds.length
  then some genesis_block else none

/-- Build as the method on the object: a const member function, so the
builder component of the result is the receiver unchanged. -/
def GenesisBlockBuilder.BuildSt (b : GenesisBlockBuilder)
    (parameters : Parameters) : Option CBlock × GenesisBlockBuilder :=
  (b.Build parameters, b)

/-- GenesisBlockBuilder::SetVersion. -/
def GenesisBlockBuilder.SetVersion (b : GenesisBlockBuilder)
    (version : Int) : GenesisBlockBuilder :=
  { b with m_version := version }

/-- GenesisBlockBuilder::SetTime. -/
def GenesisBlockBuilder.SetTime (b : GenesisBlockBuilder)
    (time : Nat) : GenesisBlockBuilder :=
  { b with m_time := time }

/-- GenesisBlockBuilder::SetBits. -/
def GenesisBlockBuilder.SetBits (b : GenesisBlockBuilder)
    (bits : Nat) : GenesisBlockBuilder :=
  { b with m_bits := bits }

/-- Value of one hex digit, or none for a non-hex character. -/
def hexDigitValue (c : Char) : Option Nat :=
  if '0' ≤ c ∧ c ≤ '9' then some (c.toNat - 48)
  else if 'a' ≤ c ∧ c ≤ 'f' then some (c.toNat - 87)
  else if 'A' ≤ c ∧ c ≤ 'F' then some (c.toNat - 55)
  else none

/-- Hex decoding over a character list: consumes pairs of hex digits;
fails on a non-hex character or an odd number of digits. -/
def parseHexChars : List Char → Option (List Nat)
  | [] => some []
  | [_] => none
  | c1 :: c2 :: rest => do
    let hi ← hexDigitValue c1
    let lo ← hexDigitValue c2
    let bs ← parseHexChars rest
    pure ((16 * hi + lo) :: bs)

/-- Modelled from the spec: hex decoding (ParseHex in
utilstrencodings.h): converts a human-readable hex string to raw bytes
and fails on malformed input. -/
def ParseHex (s : String) : Option (List Nat) := parseHexChars s.data

/-- Modelled from the spec: constructing the fixed-size 20-byte uint160
value from decoded bytes (uint256.h); a byte vector of any other length
cannot form one. -/
def uint160.fromBytes (data : List Nat) : Option (List Nat) :=
  if data.length = 20 then some data else none

/-- Modelled from the spec: constructing the fixed-size 32-byte uint256
value from decoded bytes (uint256.h); a byte vector of any other length
cannot form one. -/
def uint256.fromBytes (data : List Nat) : Option (List Nat) :=
  if data.length = 32 then some data else none

/-- GenesisBlockBuilder::AddFundsForPayToPubKeyHash: decode the hex key,
form the 20-byte pubkey hash, and append (amount, WitnessV0KeyHash) to
the fund list.  No check of the amount is performed. -/
def GenesisBlockBuilder.AddFundsForPayToPubKeyHash
    (b : GenesisBlockBuilder) (amount : CAmount) (hexKey : String) :
    Option GenesisBlockBuilder :=
  match ParseHex hexKey with
  | none => none
  | some data =>
    match uint160.fromBytes data with
    | none => none
    | some pubKeyHash =>
      some { b with m_initial_funds :=
        b.m_initial_funds ++ [(amount, .WitnessV0KeyHash pubKeyHash)] }

/-- GenesisBlockBuilder::AddFundsForPayToScriptHash: decode the hex
script hash, form the 32-byte script hash, and append
(amount, WitnessV0ScriptHash) to the fund list. -/
def GenesisBlockBuilder.AddFundsForPayToScriptHash
    (b : GenesisBlockBuilder) (amount : CAmount) (hexScriptHash : String) :
    Option GenesisBlockBuilder :=
  match ParseHex hexScriptHash with
  | none => none
  | some data =>
    match uint256.fromBytes data with
    | none => none
    | some scriptHash =>
      some { b with m_initial_funds :=
        b.m_initial_funds ++ [(amount, .WitnessV0ScriptHash scriptHash)] }

/-- P2WPKH fund descriptor: an amount and a hex-encoded pubkey hash
string. -/
structure P2WPKH where
  amount : CAmount
  pub_key_hash : String
deriving DecidableEq, Repr

/-- The P2WPKH constructor, lines 119 to 123: asserts amount > 0 and
that the string has exactly 40 characters. -/
def P2WPKH.make (amount : CAmount) (pubKeyHash : String) : Option P2WPKH :=
  if amount > 0 ∧ pubKeyHash.length = 40 then some ⟨amount, pubKeyHash⟩
  else none

/-- P2WSH fund descriptor: an amount and a hex-encoded script hash
string. -/
structure P2WSH where
  amount : CAmount
  script_hash : String
deriving DecidableEq, Repr

/-- The P2WSH constructor, lines 125 to 129: asserts amount > 0 and that
the string has exactly 64 characters. -/
def P2WSH.make (amount : CAmount) (scriptHash : String) : Option P2WSH :=
  if amount > 0 ∧ scriptHash.length = 64 then some ⟨amount, scriptHash⟩
  else none

/-- Funds: an ordered collection of P2WPKH entries. -/
structure Funds where
  destinations : List P2WPKH
deriving DecidableEq, Repr

/-- The loop body of GenesisBlockBuilder::Add: call
AddFundsForPayToPubKeyHash once per entry in collection order,
propagating failure. -/
def GenesisBlockBuilder.AddLoop :
    GenesisBlockBuilder → List P2WPKH → Option GenesisBlockBuilder
  | b, [] => some b
  | b, output :: rest =>
    match b.AddFundsForPayToPubKeyHash output.amount output.pub_key_hash with
    | none => none
    | some b2 => b2.AddLoop rest

/-- GenesisBlockBuilder::Add, lines 112 to 117. -/
def GenesisBlockBuilder.Add (b : GenesisBlockBuilder) (funds : Funds) :
    Option GenesisBlockBuilder :=
  b.AddLoop funds.destinations

/-- The fund-list entry a P2WPKH collection element turns into when
appended through AddFundsForPayToPubKeyHash, if any. -/
def fundEntry (o : P2WPKH) : Option (CAmount × CTxDestination) :=
  (ParseHex o.pub_key_hash).bind fun data =>
    (uint160.fromBytes data).map fun h => (o.amount, .WitnessV0KeyHash h)

/-- The block Build assembles before checking its assertions, in closed
form: the merkle root of the single-transaction list is that
transaction's own hash. -/
def builtBlock (b : GenesisBlockBuilder) (p : Parameters) : CBlock :=
  { nVersion := b.m_version
    nTime := p.calculateProposingTimestamp b.m_time
    nBits := b.m_bits
    hashPrevBlock := uint256.zero
    hashMerkleRoot := b.BuildCoinbaseTransaction.GetHash
    vtx := [b.BuildCoinbaseTransaction]
    signature := [] }

theorem Build_eq (b : GenesisBlockBuilder) (p : Parameters) :
    b.Build p = some (builtBlock b p) := by
  unfold GenesisBlockBuilder.Build builtBlock genesisAssertions
  simp [GenesisBlockBuilder.BuildCoinbaseTransaction, BlockMerkleRoot,
    merkleRootLoop, CTransaction.GetHash, COutPoint.null]

/-- Concrete builder with an empty fund list, for witnesses. -/
def wBuilder : GenesisBlockBuilder := ⟨2, 100, 500, []⟩

/-- Concrete chain parameters resolving the proposing timestamp to the
candidate itself, for witnesses. -/
def wParams : Parameters := ⟨fun t => t⟩

/-- The coinbase transaction of wBuilder. -/
def wTx : CTransaction := wBuilder.BuildCoinbaseTransaction

/-- The block wBuilder builds. -/
def wBlock : CBlock :=
  { nVersion := 2
    nTime := 100
    nBits := 500
    hashPrevBlock := uint256.zero
    hashMerkleRoot := wTx.GetHash
    vtx := [wTx]
    signature := [] }

/-- C1: for every successfully built block returned by
GenesisBlockBuilder::Build, the header's hashMerkleRoot equals the hash
of the block's sole transaction vtx[0]. -/
theorem build_merkle_root_eq_sole_tx_hash
    (b : GenesisBlockBuilder) (p : Parameters) (blk : CBlock)
    (hbuild : b.Build p = some blk)
    (tx : CTransaction) (htx : blk.vtx.head? = some tx) :
    blk.hashMerkleRoot = tx.GetHash := by
  rw [Build_eq] at hbuild
  cases hbuild
  simp [builtBlock] at htx
  subst htx
  rfl

/-- Witness for C1 at a concrete builder and parameters. -/
theorem build_merkle_root_eq_sole_tx_hash_witness :
    wBlock.hashMerkleRoot = wTx.GetHash :=
  build_merkle_root_eq_sole_tx_hash wBuilder wParams wBlock (by decide)
    wTx (by decide)

/-- C2: for every fund list, including the empty list, Build succeeds
(no invariant assertion fires) and the resulting block's coinbase
transaction has exactly one input whose previous-output hash is the
all-zero value and whose previous-output index is the maximum
representable value of its 32-bit index type. -/
theorem build_succeeds_null_prevout_input
    (b : GenesisBlockBuilder) (p : Parameters) :
    ∃ blk, b.Build p = some blk ∧
      blk.vtx.map (fun tx => tx.vin.map fun txin =>
        (txin.prevout.hash, txin.prevout.n)) =
      [[(uint256.zero, 2 ^ 32 - 1)]] := by
  refine ⟨builtBlock b p, Build_eq b p, ?_⟩
  simp [builtBlock, GenesisBlockBuilder.BuildCoinbaseTransaction,
    COutPoint.null]

/-- C3: for every non-empty fund list accumulated in the builder, Build
produces a block whose coinbase transaction has exactly one output per
fund entry, in the same order the entries were appended, each output
carrying that entry's amount and the locking script derived from that
entry's destination. -/
theorem build_outputs_match_fund_list
    (b : GenesisBlockBuilder) (p : Parameters)
    (_hne : b.m_initial_funds ≠ []) :
    ∃ blk, b.Build p = some blk ∧
      blk.vtx.map (fun tx => tx.vout) =
      [b.m_initial_funds.map fun e =>
        { nValue := e.1, scriptPubKey := GetScriptForDestination e.2 }] := by
  refine ⟨builtBlock b p, Build_eq b p, ?_⟩
  simp [builtBlock, GenesisBlockBuilder.BuildCoinbaseTransaction]

/-- Concrete builder with two fund entries in a fixed order, for the C3
witness. -/
def w3Builder : GenesisBlockBuilder :=
  ⟨2, 100, 500,
    [(5000, .WitnessV0KeyHash (List.replicate 20 1)),
     (3000, .WitnessV0KeyHash (List.replicate 20 2))]⟩

/-- Witness for C3 at a concrete two-entry fund list. -/
theorem build_outputs_match_fund_list_witness :
    ∃ blk, w3Builder.Build wParams = some blk ∧
      blk.vtx.map (fun tx => tx.vout) =
      [w3Builder.m_initial_funds.map fun e =>
        { nValue := e.1, scriptPubKey := GetScriptForDestination e.2 }] :=
  build_outputs_match_fund_list w3Builder wParams (by decide)

/-- C4: for every amount at most zero and every hash string,
constructing a P2WPKH or P2WSH fund descriptor fails at construction
time, regardless of whether the hash is valid. -/
theorem descriptor_nonpositive_amount_fails
    (amount : CAmount) (s : String) (hle : amount ≤ 0) :
    P2WPKH.make amount s = none ∧ P2WSH.make amount s = none := by
  have hpos : ¬ amount > 0 := not_lt.mpr hle
  have h1 : ¬ (amount > 0 ∧ s.length = 40) := fun h => hpos h.1
  have h2 : ¬ (amount > 0 ∧ s.length = 64) := fun h => hpos h.1
  exact ⟨by simp [P2WPKH.make, h1], by simp [P2WSH.make, h2]⟩

/-- Witness for C4 at amount zero and a valid 40-character hex string. -/
theorem descriptor_nonpositive_amount_fails_witness :
    P2WPKH.make 0 (String.mk (List.replicate 40 '0')) = none ∧
    P2WSH.make 0 (String.mk (List.replicate 40 '0')) = none :=
  descriptor_nonpositive_amount_fails 0 (String.mk (List.replicate 40 '0'))
    (by decide)

/-- A 40-character string that is not valid hex. -/
def zs40 : String := String.mk (List.replicate 40 'z')

/-- Counterexample to C5: a 40-character string of non-hex characters
fails to decode, yet P2WPKH descriptor construction succeeds — the
constructor checks only the character count, never hex validity or the
decoded byte length. -/
theorem descriptor_accepts_nonhex_40_chars :
    ParseHex zs40 = none ∧ P2WPKH.make 1 zs40 = some ⟨1, zs40⟩ := by
  decide

/-- C5 amended: for every string whose character length is not 40
(P2WPKH) or not 64 (P2WSH), fund descriptor construction fails at
construction time; the constructor never decodes the string, so hex
validity is not checked. -/
theorem descriptor_wrong_length_string_fails (amount : CAmount) (s : String) :
    (s.length ≠ 40 → P2WPKH.make amount s = none) ∧
    (s.length ≠ 64 → P2WSH.make amount s = none) := by
  constructor <;> intro hlen
  · have h : ¬ (amount > 0 ∧ s.length = 40) := fun h => hlen h.2
    simp [P2WPKH.make, h]
  · have h : ¬ (amount > 0 ∧ s.length = 64) := fun h => hlen h.2
    simp [P2WSH.make, h]

/-- Witness for the amended C5 at the empty string. -/
theorem descriptor_wrong_length_string_fails_witness :
    P2WPKH.make 1 "" = none ∧ P2WSH.make 1 "" = none :=
  ⟨(descriptor_wrong_length_string_fails 1 "").1 (by decide),
   (descriptor_wrong_length_string_fails 1 "").2 (by decide)⟩

/-- Counterexample to C6: the direct append operation does not succeed
for every string — with the non-hex string zz no 20-byte hash can be
obtained from the decoded bytes and the call fails. -/
theorem add_funds_fails_on_bad_hex :
    wBuilder.AddFundsForPayToPubKeyHash 1 "zz" = none := by
  decide

/-- C6 amended: the direct append operations perform no validation of
the amount: for every amount (including amounts at most zero), whenever
the hex string decodes to the required byte length (20 for
AddFundsForPayToPubKeyHash, 32 for AddFundsForPayToScriptHash) the call
succeeds and appends exactly one entry with that amount to the fund
list; for strings that do not decode to the required length the
fixed-size hash cannot be constructed and the call fails. -/
theorem add_funds_no_amount_validation
    (b : GenesisBlockBuilder) (amount : CAmount) (s : String)
    (data : List Nat) (hdec : ParseHex s = some data) :
    (data.length = 20 →
      b.AddFundsForPayToPubKeyHash amount s =
        some { b with m_initial_funds :=
          b.m_initial_funds ++ [(amount, .WitnessV0KeyHash data)] }) ∧
    (data.length = 32 →
      b.AddFundsForPayToScriptHash amount s =
        some { b with m_initial_funds :=
          b.m_initial_funds ++ [(amount, .WitnessV0ScriptHash data)] }) := by
  constructor <;> intro hlen
  · simp [GenesisBlockBuilder.AddFundsForPayToPubKeyHash, hdec,
      uint160.fromBytes, hlen]
  · simp [GenesisBlockBuilder.AddFundsForPayToScriptHash, hdec,
      uint256.fromBytes, hlen]

/-- A valid 40-character hex string (all zero digits). -/
def hex40 : String := String.mk (List.replicate 40 '0')

/-- Witness for the amended C6: a negative amount is appended verbatim
when the string is 40 valid hex characters. -/
theorem add_funds_no_amount_validation_witness :
    wBuilder.AddFundsForPayToPubKeyHash (-5) hex40 =
      some { wBuilder with m_initial_funds :=
        wBuilder.m_initial_funds ++
          [(-5, .WitnessV0KeyHash (List.replicate 20 0))] } :=
  (add_funds_no_amount_validation wBuilder (-5) hex40
      (List.replicate 20 0) (by decide)).1 (by decide)

/-- C7: calling Build twice on the same builder with the same
parameters, with no intervening mutation of the builder, yields
byte-identical blocks (the second call acts on the builder state left
behind by the first). -/
theorem build_idempotent (b : GenesisBlockBuilder) (p : Parameters) :
    (b.BuildSt p).1 = ((b.BuildSt p).2.BuildSt p).1 := rfl

/-- C8: the coinbase transaction's single input has an unlocking script
equal to the concatenation of two pushed values: first the CScriptNum
encoding of zero (the block height, which encodes as the empty byte
vector), then the all-zero 256-bit value (the empty UTXO-set
commitment), in that order. -/
theorem coinbase_script_sig_pushes (b : GenesisBlockBuilder) :
    b.BuildCoinbaseTransaction.vin.map (fun txin => txin.scriptSig) =
      [[.push (CScriptNum.serialize 0), .push (List.replicate 32 0)]] ∧
    CScriptNum.serialize 0 = [] := by
  constructor
  · simp [GenesisBlockBuilder.BuildCoinbaseTransaction, ToByteVector,
      uint256.zero]
  · rfl

/-- AddFundsForPayToPubKeyHash in closed form: it maps the fund-list
entry the P2WPKH data turns into, if any, onto the appended builder. -/
theorem addFundsP2WPKH_eq (b : GenesisBlockBuilder) (amount : CAmount)
    (s : String) :
    b.AddFundsForPayToPubKeyHash amount s =
      (fundEntry ⟨amount, s⟩).map fun e =>
        { b with m_initial_funds := b.m_initial_funds ++ [e] } := by
  unfold GenesisBlockBuilder.AddFundsForPayToPubKeyHash fundEntry
  cases hdec : ParseHex s with
  | none => rfl
  | some data =>
    cases hfb : uint160.fromBytes data with
    | none => simp [hfb]
    | some h => simp [hfb]

theorem addLoop_foldl (l : List P2WPKH) :
    ∀ b : GenesisBlockBuilder,
      b.AddLoop l = l.foldl
        (fun ob o => ob.bind fun b2 =>
          b2.AddFundsForPayToPubKeyHash o.amount o.pub_key_hash)
        (some b) := by
  induction l with
  | nil => intro b; rfl
  | cons o rest ih =>
    intro b
    show (match b.AddFundsForPayToPubKeyHash o.amount o.pub_key_hash with
      | none => none
      | some b2 => b2.AddLoop rest) = _
    rw [List.foldl_cons]
    cases hadd : b.AddFundsForPayToPubKeyHash o.amount o.pub_key_hash with
    | none =>
      simp only [Option.some_bind, hadd]
      clear hadd ih
      induction rest with
      | nil => rfl
      | cons o2 rest2 ih2 => rw [List.foldl_cons]; exact ih2
    | some b2 => simp only [Option.some_bind, hadd, ih b2]

theorem addLoop_funds (l : List P2WPKH) :
    ∀ b b2 : GenesisBlockBuilder, b.AddLoop l = some b2 →
      b2.m_initial_funds = b.m_initial_funds ++ l.filterMap fundEntry := by
  induction l with
  | nil =>
    intro b b2 h
    cases h
    rw [List.filterMap_nil, List.append_nil]
  | cons o rest ih =>
    intro b b2 h
    rw [show b.AddLoop (o :: rest) =
        (match b.AddFundsForPayToPubKeyHash o.amount o.pub_key_hash with
          | none => none
          | some b3 => b3.AddLoop rest) from rfl,
      addFundsP2WPKH_eq] at h
    cases hfe : fundEntry o with
    | none => rw [hfe] at h; cases h
    | some e =>
      rw [hfe] at h
      have h2 : GenesisBlockBuilder.AddLoop
          { b with m_initial_funds := b.m_initial_funds ++ [e] } rest =
          some b2 := h
      rw [List.filterMap_cons, hfe, ih _ _ h2]
      simp

/-- C9: bulk-appending a Funds collection of P2WPKH entries via Add
leaves the builder in the same state as calling
AddFundsForPayToPubKeyHash once per entry in collection order, and every
append path preserves the caller's order, appending the entries at the
end of the fund list with no de-duplication or sorting. -/
theorem add_bulk_equals_individual_appends
    (b : GenesisBlockBuilder) (funds : Funds) :
    b.Add funds = funds.destinations.foldl
      (fun ob o => ob.bind fun b2 =>
        b2.AddFundsForPayToPubKeyHash o.amount o.pub_key_hash)
      (some b) ∧
    (∀ b2, b.Add funds = some b2 →
      b2.m_initial_funds =
        b.m_initial_funds ++ funds.destinations.filterMap fundEntry) :=
  ⟨addLoop_foldl funds.destinations b,
   fun b2 h => addLoop_funds funds.destinations b b2 h⟩

/-- A concrete two-entry Funds collection for the C9 witness. -/
def w9Funds : Funds :=
  ⟨[⟨5000, String.mk (List.replicate 40 '0')⟩,
    ⟨3000, String.mk (List.replicate 38 '0' ++ ['1', '1'])⟩]⟩

/-- The builder state after bulk-appending w9Funds to wBuilder. -/
def w9Builder : GenesisBlockBuilder :=
  ⟨2, 100, 500,
    [(5000, .WitnessV0KeyHash (List.replicate 20 0)),
     (3000, .WitnessV0KeyHash (List.replicate 19 0 ++ [17]))]⟩

/-- Witness for C9 at a concrete builder and two-entry collection. -/
theorem add_bulk_equals_individual_appends_witness :
    wBuilder.Add w9Funds = w9Funds.destinations.foldl
      (fun ob o => ob.bind fun b2 =>
        b2.AddFundsForPayToPubKeyHash o.amount o.pub_key_hash)
      (some wBuilder) ∧
    w9Builder.m_initial_funds =
      wBuilder.m_initial_funds ++ w9Funds.destinations.filterMap fundEntry :=
  ⟨(add_bulk_equals_individual_appends wBuilder w9Funds).1,
   (add_bulk_equals_individual_appends wBuilder w9Funds).2 w9Builder
     (by decide)⟩

/-- C10: Build does not modify the builder — after Build returns, the
builder's version, time, bits and fund list are unchanged from their
values before the call. -/
theorem build_preserves_builder (b : GenesisBlockBuilder) (p : Parameters) :
    (b.BuildSt p).2.m_version = b.m_version ∧
    (b.BuildSt p).2.m_time = b.m_time ∧
    (b.BuildSt p).2.m_bits = b.m_bits ∧
    (b.BuildSt p).2.m_initial_funds = b.m_initial_funds :=
  ⟨rfl, rfl, rfl, rfl⟩

end Blockchain
